import Mathlib

/-!
Verification development for binview (zetamatta/binview), a terminal hex
viewer.  The definitions below are a shallow embedding of `src/main.go`:

* the renderer `draw` (main.go lines 36-102) is modelled as a function
  returning the list of byte chunks written, one chunk per
  `io.WriteString` / `fmt.Fprintf` / `out.Write` call, in order;
* the per-line diff cache (global `cache`, used in `view` lines 144-148)
  is modelled as an association list searched front to back, an update
  prepending the new entry;
* the interactive loop body of `main1` (lines 238-318) is modelled as a
  step function over the loop's mutable variables, the per-iteration
  external inputs (terminal size query result, key read results)
  supplied as `Except` values;
* the startup read loop (lines 207-220) is modelled over a finite trace
  of read results.

Bytes are `Nat` values below 256; Go `int` variables are `Int`.
-/

set_option autoImplicit false

namespace Binview

/-- Bytes of an ASCII string literal (every character used is below 0x80,
so one character is one byte). -/
def ascii (s : String) : List Nat := s.toList.map Char.toNat

/-- SGR attribute written for the byte under the cursor (main.go line 17). -/
def CURSOR_COLOR : List Nat := ascii "\x1B[0;40;37;1;7m"

/-- SGR attribute of the first alternating 4-byte group (main.go line 18). -/
def CELL1_COLOR : List Nat := ascii "\x1B[0;40;37m"

/-- SGR attribute of the second alternating 4-byte group (main.go line 19). -/
def CELL2_COLOR : List Nat := ascii "\x1B[0;40;37;1m"

/-- Reset-and-erase-to-end-of-line marker ending every line (main.go line 20). -/
def ERASE_LINE : List Nat := ascii "\x1B[0m\x1B[0K"

/-- Uppercase hexadecimal digit byte, as produced by Go's %X formatting. -/
def hexDigitByte (n : Nat) : Nat := if n < 10 then 48 + n else 55 + n

/-- Go's `%02X` formatting of one byte: exactly two uppercase hex digits. -/
def hex2 (s : Nat) : List Nat := [hexDigitByte (s / 16 % 16), hexDigitByte (s % 16)]

/-- Go's `%08X` formatting of an address below 2^32: eight uppercase hex
digits, most significant first (main.go line 37). -/
def hex8 (n : Nat) : List Nat :=
  (List.range 8).reverse.map (fun k => hexDigitByte (n / 16 ^ k % 16))

/-- Chunks written for hex column `i` holding byte `s` (main.go lines 38-50):
a reset-plus-space separator before every column except the first, then the
attribute — cursor attribute when `i` equals the cursor position, otherwise
one of two alternating group attributes selected by `(i >> 2) & 1` — then
the byte as two uppercase hex digits. -/
def hexCell (cursorPos : Int) (i : Nat) (s : Nat) : List (List Nat) :=
  (if 0 < i then [ascii "\x1B[0m "] else []) ++
    [(if (i : Int) = cursorPos then CURSOR_COLOR
      else if (i >>> 2) &&& 1 = 0 then CELL1_COLOR
      else CELL2_COLOR),
     hex2 s]

/-- Address prefix, hex columns and the trailing reset-plus-space of one
line (main.go lines 37-51), before the blank padding columns. -/
def hexBody (address : Nat) (cursorPos : Int) (slice : List Nat) : List (List Nat) :=
  (hex8 address ++ ascii " ") ::
    ((slice.enum.map (fun p => hexCell cursorPos p.1 p.2)).flatten ++ [ascii "\x1B[0m "])

/-- Everything `draw` writes before the character panel (main.go lines
37-54): the hex body followed by one three-space blank chunk per missing
hex column (the loop `for i := len(slice); i < 16; i++`). -/
def hexPanel (address : Nat) (cursorPos : Int) (slice : List Nat) : List (List Nat) :=
  hexBody address cursorPos slice ++
    (List.range (16 - slice.length)).map (fun _ => ascii "   ")

/-- UTF-8 sequence length declared by the lead byte at index `i`
(main.go lines 57-67): 1 for a printable ASCII byte 0x20..0x7E, 2 for a
lead in 0xC2..0xDF, 3 for 0xE0..0xEF, 4 for 0xF0..0xF4, otherwise 0. -/
def headLen (slice : List Nat) (i : Nat) : Nat :=
  let s := slice.getD i 0
  if 0x20 ≤ s ∧ s ≤ 0x7E then 1
  else if 0xC2 ≤ s ∧ s ≤ 0xDF then 2
  else if 0xE0 ≤ s ∧ s ≤ 0xEF then 3
  else if 0xF0 ≤ s ∧ s ≤ 0xF4 then 4
  else 0

/-- Accepted sequence length at index `i` (main.go lines 69-78): the
declared length is reset to 0 when `i + length >= len(slice)` (note: the
source uses `>=`, so a sequence ending exactly at the record end is
rejected) or when some declared continuation byte falls outside
0x80..0xBF. -/
def seqLen (slice : List Nat) (i : Nat) : Nat :=
  let L := headLen slice i
  if slice.length ≤ i + L then 0
  else if (List.range (L - 1)).all (fun j =>
      let c := slice.getD (i + 1 + j) 0
      decide (0x80 ≤ c ∧ c ≤ 0xBF)) then L
  else 0

/-- Character panel scan (main.go lines 56-100), one iteration per byte
position `i`; a rejected byte emits its attribute and a placeholder "."
and advances by one, an accepted sequence emits its attribute — cursor
attribute when the cursor column lies inside the byte span — its raw
bytes, the alignment padding after 3- and 4-byte glyphs, and advances by
the sequence length.  `fuel` bounds the recursion; any `fuel` of at least
`slice.length - i` yields the loop's exact output. -/
def charPanel (cursorPos : Int) (slice : List Nat) : Nat → Nat → List (List Nat)
  | 0, _ => []
  | fuel + 1, i =>
    if i < slice.length then
      let L := seqLen slice i
      if L = 0 then
        (if (i : Int) = cursorPos then CURSOR_COLOR else CELL1_COLOR) ::
          ascii "." :: charPanel cursorPos slice fuel (i + 1)
      else
        (if (i : Int) ≤ cursorPos ∧ cursorPos < (i : Int) + (L : Int) then CURSOR_COLOR
         else CELL1_COLOR) ::
          ((slice.drop i).take L) ::
          ((if L = 3 then [ascii " "] else if L = 4 then [ascii "  "] else []) ++
            charPanel cursorPos slice fuel (i + L))
    else []

/-- The renderer `draw` (main.go lines 36-102) as the ordered list of byte
chunks it writes: hex panel, character panel, erase-to-end-of-line. -/
def draw (address : Nat) (cursorPos : Int) (slice : List Nat) : List (List Nat) :=
  hexPanel address cursorPos slice ++
    charPanel cursorPos slice slice.length 0 ++ [ERASE_LINE]

/-! ## Visible width

Terminal columns occupied by a byte stream: every byte counts for one
column except ANSI escape sequences, which start with ESC (27) and end at
the first byte in 0x40..0x7E other than the CSI opener 0x5B.  All chunks
produced by `draw` contain only complete escape sequences and single-column
text bytes, so this measures the column at which later text starts. -/

/-- Column count of a byte stream; `m` is true while inside an escape
sequence. -/
def visLenAux : Bool → List Nat → Nat
  | _, [] => 0
  | false, b :: r => if b = 27 then visLenAux true r else visLenAux false r + 1
  | true, b :: r =>
    if 0x40 ≤ b ∧ b ≤ 0x7E ∧ b ≠ 0x5B then visLenAux false r else visLenAux true r

/-- Columns occupied by a byte stream started outside an escape sequence. -/
def visLen (bs : List Nat) : Nat := visLenAux false bs

/-- Escape-parser mode after consuming a byte stream. -/
def escMode : Bool → List Nat → Bool
  | m, [] => m
  | false, b :: r => if b = 27 then escMode true r else escMode false r
  | true, b :: r =>
    if 0x40 ≤ b ∧ b ≤ 0x7E ∧ b ≠ 0x5B then escMode false r else escMode true r

/-- Whether a byte is an uppercase hexadecimal digit (0-9, A-F). -/
def isHexDigitByte (b : Nat) : Bool :=
  decide ((48 ≤ b ∧ b ≤ 57) ∨ (65 ≤ b ∧ b ≤ 70))

/-- Whether a chunk is one two-hex-digit group, as emitted for one byte of
a record. -/
def isHexGroup (c : List Nat) : Bool := c.length == 2 && c.all isHexDigitByte

/-! ## Diff cache

The Go program keeps a process-global `map[int]string` (main.go line 109);
`view` writes a line only when it differs from the memoized text for that
row slot (lines 144-148).  The map is modelled as an association list,
lookup returning the Go zero value (the empty byte list) for a missing
slot, assignment prepending a shadowing entry. -/

/-- Cache state: row slot index paired with the last bytes written there. -/
def Cache : Type := List (Nat × List Nat)

instance : DecidableEq Cache := by unfold Cache; infer_instance

/-- Lookup `cache[count]`; a missing slot yields Go's zero value "". -/
def cacheGet (c : Cache) (k : Nat) : List Nat :=
  match c.find? (fun p => p.1 == k) with
  | some p => p.2
  | none => []

/-- Assignment `cache[count] = line`. -/
def cacheSet (c : Cache) (k : Nat) (v : List Nat) : Cache := (k, v) :: c

/-- One pass of `view`'s per-line diff logic (main.go lines 144-148):
returns whether the line must be written, and the updated cache. -/
def cacheStep (c : Cache) (slot : Nat) (line : List Nat) : Bool × Cache :=
  if cacheGet c slot ≠ line then (true, cacheSet c slot line) else (false, c)

/-! ## The view loop

`view` (main.go lines 113-151) walks the records of a `MemoryBin` window
(`MemoryBin.Read` yields `Data[StartY]` and advances, or `io.EOF` once
`StartY` reaches the end — main.go lines 158-165; it never yields another
error, so the `err != nil` propagation branch of `view` is dead here).
`homeAddress` is the window's initial `StartY` (line 116). -/

/-- Loop of `view`: `count` is the current row slot, `lf` the number of
line feeds printed so far; stops when `count` reaches `h` or the records
are exhausted.  `fuel` of at least `data.length` covers every run. -/
def viewAux (data : List (List Nat)) (startY0 : Int) (csrpos csrlin : Int) (h : Int) :
    Nat → Nat → Nat → Cache → Nat × Cache
  | 0, _, lf, c => (lf, c)
  | fuel + 1, count, lf, c =>
    if h ≤ (count : Int) then (lf, c)
    else if (data.length : Int) ≤ startY0 + count then (lf, c)
    else
      let record := data.getD (startY0 + (count : Int)).toNat []
      let lf1 := if 0 < count then lf + 1 else lf
      let line := (draw ((startY0 + (count : Int)) * 16).toNat
        (if (count : Int) = csrlin then csrpos else -1) record).flatten
      viewAux data startY0 csrpos csrlin h fuel (count + 1) lf1 (cacheStep c count line).2

/-- The `view` call (main.go line 250): cursor position passed for the row
slot matching the cursor row, `-1` otherwise; `w` is accepted and unused,
as in the source. -/
def view (data : List (List Nat)) (startY : Int) (csrpos csrlin : Int) (w h : Int)
    (c : Cache) : Nat × Cache :=
  viewAux data startY csrpos csrlin h data.length 0 0 c

/-! ## Navigation state machine -/

/-- Named key tokens of main.go lines 178-192 that the claims mention. -/
def KEY_ESC : String := "\x1B"

/-- Down-arrow escape token. -/
def KEY_DOWN : String := "\x1B[B"

/-- Up-arrow escape token. -/
def KEY_UP : String := "\x1B[A"

/-- Left-arrow escape token. -/
def KEY_LEFT : String := "\x1B[D"

/-- Right-arrow escape token. -/
def KEY_RIGHT : String := "\x1B[C"

/-- Control-key tokens. -/
def KEY_CTRL_A : String := "\x01"

/-- Ctrl-B token. -/
def KEY_CTRL_B : String := "\x02"

/-- Ctrl-E token. -/
def KEY_CTRL_E : String := "\x05"

/-- Ctrl-F token. -/
def KEY_CTRL_F : String := "\x06"

/-- Ctrl-L token. -/
def KEY_CTRL_L : String := "\x0C"

/-- Ctrl-N token. -/
def KEY_CTRL_N : String := "\x0E"

/-- Ctrl-P token. -/
def KEY_CTRL_P : String := "\x10"

/-- Mutable variables of `main1`'s interactive loop (main.go lines
231-248): cursor column `colIndex`, cursor row `rowIndex`, first visible
row `startRow`, the last seen terminal size, and the diff cache. -/
structure LoopState where
  colIndex : Int
  rowIndex : Int
  startRow : Int
  lastWidth : Int
  lastHeight : Int
  cache : Cache
deriving DecidableEq

/-- Result of one loop iteration: continue with a new state, `return nil`
(confirmed quit), or `return err`. -/
inductive StepOutcome where
  | next (s : LoopState)
  | quit
  | fail (e : String)
deriving DecidableEq

/-- Go's `len(slices[rowIndex])` for the current row (rows are indexed
with an in-range `int` everywhere `main1` evaluates this). -/
def rowLen (slices : List (List Nat)) (r : Int) : Int :=
  ((slices.getD r.toNat []).length : Int)

/-- The key dispatch switch (main.go lines 273-304) without the two exits:
Ctrl-L clears the diff cache, "q"/escape leave the state unchanged here
(the confirmed-quit exit is handled by `loopIter`), the movement and
placement keys update the cursor, unknown keys do nothing. -/
def switchKey (slices : List (List Nat)) (s : LoopState) (ch : String) : LoopState :=
  if ch = KEY_CTRL_L then { s with cache := [] }
  else if ch = "q" ∨ ch = KEY_ESC then s
  else if ch = "j" ∨ ch = KEY_DOWN ∨ ch = KEY_CTRL_N then
    (if s.rowIndex < (slices.length : Int) - 1 then { s with rowIndex := s.rowIndex + 1 } else s)
  else if ch = "k" ∨ ch = KEY_UP ∨ ch = KEY_CTRL_P then
    (if 0 < s.rowIndex then { s with rowIndex := s.rowIndex - 1 } else s)
  else if ch = "h" ∨ ch = KEY_LEFT ∨ ch = KEY_CTRL_B then
    (if 0 < s.colIndex then { s with colIndex := s.colIndex - 1 } else s)
  else if ch = "l" ∨ ch = KEY_RIGHT ∨ ch = KEY_CTRL_F then
    { s with colIndex := s.colIndex + 1 }
  else if ch = "0" ∨ ch = "^" ∨ ch = KEY_CTRL_A then { s with colIndex := 0 }
  else if ch = "$" ∨ ch = KEY_CTRL_E then
    { s with colIndex := rowLen slices s.rowIndex - 1 }
  else if ch = "<" then { s with rowIndex := 0 }
  else if ch = ">" then { s with rowIndex := (slices.length : Int) - 1 }
  else s

/-- Post-switch column clamp (main.go lines 305-307):
`if colIndex >= len(slices[rowIndex]) { colIndex = len(slices[rowIndex]) - 1 }`. -/
def clampCol (slices : List (List Nat)) (s : LoopState) : LoopState :=
  if rowLen slices s.rowIndex ≤ s.colIndex then
    { s with colIndex := rowLen slices s.rowIndex - 1 }
  else s

/-- Scroll-to-keep-visible adjustment (main.go lines 309-313), with
`scrH` the full terminal height (`screenHeight`); the height available
for data rows is `scrH - 1`. -/
def scrollFix (scrH : Int) (s : LoopState) : LoopState :=
  if s.rowIndex < s.startRow then { s with startRow := s.rowIndex }
  else if s.startRow + scrH - 1 ≤ s.rowIndex then
    { s with startRow := s.rowIndex - (scrH - 1) + 1 }
  else s

/-- Whether the quit-confirmation read yields "y" with no error
(main.go line 278: `err == nil && ch == "y"`). -/
def confirmYes (confirm : Except String String) : Bool :=
  match confirm with
  | .ok a => a = "y"
  | .error _ => false

/-- Key-handling tail of one `main1` iteration (main.go lines 269-313):
a failed key read aborts with its error; "q"/escape followed by a
confirmed "y" returns success; every other path runs the switch, the
column clamp and the scroll adjustment. -/
def loopIter (slices : List (List Nat)) (scrH : Int) (s : LoopState)
    (key confirm : Except String String) : StepOutcome :=
  match key with
  | .error e => .fail e
  | .ok ch =>
    if (ch = "q" ∨ ch = KEY_ESC) ∧ confirmYes confirm then .quit
    else .next (scrollFix scrH (clampCol slices (switchKey slices s ch)))

/-- One full iteration of `main1`'s loop (main.go lines 238-318): a failed
terminal-size query aborts with its error; a size change resets the diff
cache and records the new size; `view` renders the visible window through
the cache; then the key is dispatched. -/
def frameStep (slices : List (List Nat)) (s : LoopState)
    (size : Except String (Int × Int)) (key confirm : Except String String) : StepOutcome :=
  match size with
  | .error e => .fail e
  | .ok (w, h) =>
    let s1 := if s.lastWidth ≠ w ∨ s.lastHeight ≠ h then
        { s with lastWidth := w, lastHeight := h, cache := [] }
      else s
    let vres := view slices s1.startRow s1.colIndex (s1.rowIndex - s1.startRow)
      (w - 1) (h - 1) s1.cache
    loopIter slices h { s1 with cache := vres.2 } key confirm

/-! ## Startup read loop

`main1` reads the whole input into 16-byte chunks before the loop starts
(main.go lines 207-220): each read into the 16-byte buffer that returns a
positive count appends that many bytes as one record; a non-EOF error
aborts, EOF ends the loop.  The reader is modelled as a finite trace of
read results; an exhausted trace behaves as EOF. -/

/-- One read result: the bytes placed in the buffer (at most 16 for a
16-byte buffer) and the accompanying error, if any. -/
inductive ReadErr where
  | eof
  | other (msg : String)
deriving DecidableEq

/-- The read loop of main.go lines 207-220 over a trace of read results. -/
def loadLoop : List (List Nat × Option ReadErr) → List (List Nat) →
    Except String (List (List Nat))
  | [], acc => .ok acc
  | (chunk, e) :: rest, acc =>
    let acc1 := if 0 < chunk.length then acc ++ [chunk] else acc
    match e with
    | none => loadLoop rest acc1
    | some .eof => .ok acc1
    | some (.other m) => .error m

/-- The dataset built at startup from a trace of read results. -/
def loadSlices (reads : List (List Nat × Option ReadErr)) : Except String (List (List Nat)) :=
  loadLoop reads []

/-- One right-key press, projected back to a state (the "l" key never
quits or fails, so the fallback branch is unreachable). -/
def stepRight (slices : List (List Nat)) (scrH : Int) (s : LoopState) : LoopState :=
  match loopIter slices scrH s (.ok "l") (.ok "") with
  | .next t => t
  | _ => s

/-- `n` successive right-key presses. -/
def iterRight (slices : List (List Nat)) (scrH : Int) : Nat → LoopState → LoopState
  | 0, s => s
  | n + 1, s => iterRight slices scrH n (stepRight slices scrH s)

/-! ## Helper lemmas -/

/-- A freshly assigned slot reads back the assigned line. -/
lemma cacheGet_cacheSet (c : Cache) (k : Nat) (v : List Nat) :
    cacheGet (cacheSet c k v) k = v := by
  simp [cacheGet, cacheSet, List.find?]

/-- Every rendered line is nonempty: it starts with the 9-byte address
chunk. -/
lemma draw_flatten_ne_nil (a : Nat) (cp : Int) (s : List Nat) :
    (draw a cp s).flatten ≠ [] := by
  intro h
  simp [draw, hexPanel, hexBody, hex8, ascii] at h

/-- After one `cacheStep` for a line, the slot holds that line. -/
lemma cacheGet_after_step (c : Cache) (slot : Nat) (line : List Nat) :
    cacheGet (cacheStep c slot line).2 slot = line := by
  unfold cacheStep
  split_ifs with h
  · exact cacheGet_cacheSet c slot line
  · exact not_ne_iff.mp h

/-- "q" and escape leave the navigation state unchanged in the switch. -/
lemma switchKey_quit (slices : List (List Nat)) (s : LoopState) (ch : String)
    (hch : ch = "q" ∨ ch = KEY_ESC) : switchKey slices s ch = s := by
  rcases hch with h | h <;> subst h <;> rfl

/-- Every nonempty-rows dataset gives the current row a positive length. -/
lemma rowLen_pos (slices : List (List Nat)) (r : Int)
    (hrows : ∀ q ∈ slices, 1 ≤ q.length)
    (h0 : 0 ≤ r) (h1 : r < (slices.length : Int)) :
    1 ≤ rowLen slices r := by
  have hr : r.toNat < slices.length := by omega
  have hmem : slices.getD r.toNat [] ∈ slices := by
    rw [List.getD_eq_getElem?_getD, List.getElem?_eq_getElem hr]
    exact List.getElem_mem hr
  have := hrows _ hmem
  unfold rowLen
  omega

/-- Projections of an explicitly built loop state. -/
@[simp] lemma mkState_colIndex (c r st lw lh : Int) (cc : Cache) :
    (LoopState.mk c r st lw lh cc).colIndex = c := rfl

/-- Row projection of an explicitly built loop state. -/
@[simp] lemma mkState_rowIndex (c r st lw lh : Int) (cc : Cache) :
    (LoopState.mk c r st lw lh cc).rowIndex = r := rfl

/-- Start-row projection of an explicitly built loop state. -/
@[simp] lemma mkState_startRow (c r st lw lh : Int) (cc : Cache) :
    (LoopState.mk c r st lw lh cc).startRow = st := rfl

set_option maxHeartbeats 1600000 in
/-- The switch keeps the cursor row inside the dataset and the column
nonnegative, given nonempty rows. -/
lemma switchKey_bounds (slices : List (List Nat)) (s : LoopState) (ch : String)
    (hrows : ∀ q ∈ slices, 1 ≤ q.length)
    (hr0 : 0 ≤ s.rowIndex) (hr1 : s.rowIndex < (slices.length : Int))
    (hc : 0 ≤ s.colIndex) :
    0 ≤ (switchKey slices s ch).rowIndex
    ∧ (switchKey slices s ch).rowIndex < (slices.length : Int)
    ∧ 0 ≤ (switchKey slices s ch).colIndex := by
  have hlen : 1 ≤ rowLen slices s.rowIndex := rowLen_pos slices s.rowIndex hrows hr0 hr1
  unfold switchKey
  split_ifs <;> refine ⟨?_, ?_, ?_⟩ <;>
    first
      | omega
      | (simp only [mkState_colIndex, mkState_rowIndex]; omega)

/-- The scroll adjustment changes only the start row. -/
lemma scrollFix_rowIndex (scrH : Int) (t : LoopState) :
    (scrollFix scrH t).rowIndex = t.rowIndex := by
  unfold scrollFix
  split_ifs <;> rfl

/-- The scroll adjustment changes only the start row, not the column. -/
lemma scrollFix_colIndex (scrH : Int) (t : LoopState) :
    (scrollFix scrH t).colIndex = t.colIndex := by
  unfold scrollFix
  split_ifs <;> rfl

/-- The column clamp does not move the cursor row. -/
lemma clampCol_rowIndex (slices : List (List Nat)) (t : LoopState) :
    (clampCol slices t).rowIndex = t.rowIndex := by
  unfold clampCol
  split_ifs <;> rfl

/-- After the clamp the column lies in `[0, len(row)-1]`, given a
nonnegative column in and a nonempty current row. -/
lemma clampCol_bounds (slices : List (List Nat)) (t : LoopState)
    (hlen : 1 ≤ rowLen slices t.rowIndex) (hc : 0 ≤ t.colIndex) :
    0 ≤ (clampCol slices t).colIndex
    ∧ (clampCol slices t).colIndex ≤ rowLen slices t.rowIndex - 1 := by
  unfold clampCol
  split_ifs with h
  · constructor
    · show (0 : Int) ≤ rowLen slices t.rowIndex - 1
      omega
    · show rowLen slices t.rowIndex - 1 ≤ rowLen slices t.rowIndex - 1
      omega
  · exact ⟨hc, by omega⟩

/-- Any continuing loop iteration leaves the column inside the (possibly
new) current row, given nonempty rows and a well-formed incoming state. -/
lemma loopIter_next_col_bounds (slices : List (List Nat)) (scrH : Int) (s : LoopState)
    (ch : String) (confirm : Except String String) (s' : LoopState)
    (hrows : ∀ q ∈ slices, 1 ≤ q.length)
    (hr0 : 0 ≤ s.rowIndex) (hr1 : s.rowIndex < (slices.length : Int))
    (hc : 0 ≤ s.colIndex)
    (h : loopIter slices scrH s (.ok ch) confirm = .next s') :
    (0 ≤ s'.rowIndex ∧ s'.rowIndex < (slices.length : Int))
    ∧ 0 ≤ s'.colIndex ∧ s'.colIndex ≤ rowLen slices s'.rowIndex - 1 := by
  simp only [loopIter] at h
  split at h
  · exact absurd h (by simp)
  · have hs' : s' = scrollFix scrH (clampCol slices (switchKey slices s ch)) :=
      (StepOutcome.next.injEq _ _).mp h.symm
    subst hs'
    obtain ⟨hb0, hb1, hb2⟩ := switchKey_bounds slices s ch hrows hr0 hr1 hc
    have hlen : 1 ≤ rowLen slices (switchKey slices s ch).rowIndex :=
      rowLen_pos slices _ hrows hb0 hb1
    obtain ⟨hc0, hc1⟩ := clampCol_bounds slices (switchKey slices s ch) hlen hb2
    rw [scrollFix_rowIndex, scrollFix_colIndex, clampCol_rowIndex]
    exact ⟨⟨hb0, hb1⟩, hc0, hc1⟩

/-- Repeated right-key presses from the last column stay at the last
column of the unchanged current row. -/
lemma iterRight_last_col (slices : List (List Nat)) (scrH : Int) :
    ∀ (N : Nat) (s : LoopState), 0 ≤ s.rowIndex → s.rowIndex < (slices.length : Int) →
      1 ≤ rowLen slices s.rowIndex →
      s.colIndex = rowLen slices s.rowIndex - 1 →
      (iterRight slices scrH N s).colIndex = rowLen slices s.rowIndex - 1
      ∧ (iterRight slices scrH N s).rowIndex = s.rowIndex := by
  intro N
  induction N with
  | zero => intro s _ _ _ h; exact ⟨h, rfl⟩
  | succ n ih =>
    intro s h0 h1 hlen h
    have hstep : stepRight slices scrH s =
        scrollFix scrH (clampCol slices { s with colIndex := s.colIndex + 1 }) := rfl
    have hclamp : clampCol slices { s with colIndex := s.colIndex + 1 } =
        { s with colIndex := rowLen slices s.rowIndex - 1 } := by
      unfold clampCol
      rw [if_pos]
      show rowLen slices s.rowIndex ≤ s.colIndex + 1
      omega
    have hrow : (stepRight slices scrH s).rowIndex = s.rowIndex := by
      rw [hstep, hclamp, scrollFix_rowIndex]
    have hcol : (stepRight slices scrH s).colIndex = rowLen slices s.rowIndex - 1 := by
      rw [hstep, hclamp, scrollFix_colIndex]
    have hrec := ih (stepRight slices scrH s) (by rw [hrow]; exact h0)
      (by rw [hrow]; exact h1) (by rw [hrow]; exact hlen) (by rw [hcol, hrow])
    have hiter : iterRight slices scrH (n + 1) s =
        iterRight slices scrH n (stepRight slices scrH s) := rfl
    rw [hiter]
    rw [hrow] at hrec
    exact hrec

/-- Records appended by the startup read loop keep length in `[1, 16]`
when every read fits the 16-byte buffer. -/
lemma loadLoop_bounds :
    ∀ (reads : List (List Nat × Option ReadErr)) (acc slices : List (List Nat)),
      (∀ p ∈ reads, p.1.length ≤ 16) →
      (∀ q ∈ acc, 1 ≤ q.length ∧ q.length ≤ 16) →
      loadLoop reads acc = .ok slices →
      ∀ q ∈ slices, 1 ≤ q.length ∧ q.length ≤ 16 := by
  intro reads
  induction reads with
  | nil =>
    intro acc slices _ hacc h
    simp only [loadLoop, Except.ok.injEq] at h
    subst h
    exact hacc
  | cons p rest ih =>
    intro acc slices hr hacc h
    obtain ⟨chunk, e⟩ := p
    have hchunk : chunk.length ≤ 16 := hr (chunk, e) (by simp)
    have hacc1 : ∀ q ∈ (if 0 < chunk.length then acc ++ [chunk] else acc),
        1 ≤ q.length ∧ q.length ≤ 16 := by
      split_ifs with hpos
      · intro q hq
        rcases List.mem_append.mp hq with hq | hq
        · exact hacc q hq
        · simp only [List.mem_singleton] at hq
          subst hq
          exact ⟨hpos, hchunk⟩
      · exact hacc
    rcases e with _ | err
    · simp only [loadLoop] at h
      exact ih _ slices (fun p hp => hr p (List.mem_cons_of_mem _ hp)) hacc1 h
    · rcases err with _ | m
      · simp only [loadLoop, Except.ok.injEq] at h
        subst h
        exact hacc1
      · simp only [loadLoop] at h
        cases h

/-- Concatenating byte streams adds their column counts, threading the
escape-parser mode. -/
lemma visLenAux_append : ∀ (x y : List Nat) (m : Bool),
    visLenAux m (x ++ y) = visLenAux m x + visLenAux (escMode m x) y := by
  intro x
  induction x with
  | nil => intro y m; simp [visLenAux, escMode]
  | cons b r ih =>
    intro y m
    cases m with
    | false =>
      by_cases hb : b = 27
      · simp only [List.cons_append, visLenAux, escMode, if_pos hb]
        exact ih y true
      · simp only [List.cons_append, visLenAux, escMode, List.append_eq, if_neg hb]
        rw [ih y false]
        omega
    | true =>
      by_cases hb : 0x40 ≤ b ∧ b ≤ 0x7E ∧ b ≠ 0x5B
      · simp only [List.cons_append, visLenAux, escMode, if_pos hb]
        exact ih y false
      · simp only [List.cons_append, visLenAux, escMode, if_neg hb]
        exact ih y true

/-- A stream without the ESC byte stays outside escape sequences and is
as wide as it is long. -/
lemma no_esc_facts : ∀ (x : List Nat), (∀ b ∈ x, b ≠ 27) →
    escMode false x = false ∧ visLenAux false x = x.length := by
  intro x
  induction x with
  | nil => intro _; exact ⟨rfl, rfl⟩
  | cons b r ih =>
    intro h
    have hb : b ≠ 27 := h b (by simp)
    have hr := ih (fun c hc => h c (by simp [hc]))
    refine ⟨?_, ?_⟩
    · simp only [escMode, if_neg hb]
      exact hr.1
    · simp only [visLenAux, if_neg hb, hr.2, List.length_cons]

/-- Hex digit bytes are at least 48 (so never ESC). -/
lemma hexDigitByte_ge (n : Nat) : 48 ≤ hexDigitByte n := by
  unfold hexDigitByte
  split_ifs <;> omega

/-- Hex digit bytes of nibbles are hex digits. -/
lemma isHexDigitByte_hexDigitByte (m : Nat) (hm : m < 16) :
    isHexDigitByte (hexDigitByte m) = true := by
  unfold isHexDigitByte hexDigitByte
  split_ifs with h <;> simp only [decide_eq_true_eq] <;> omega

/-- A `%02X` chunk is a two-hex-digit group. -/
lemma isHexGroup_hex2 (s : Nat) : isHexGroup (hex2 s) = true := by
  have h1 := isHexDigitByte_hexDigitByte (s / 16 % 16) (Nat.mod_lt _ (by norm_num))
  have h2 := isHexDigitByte_hexDigitByte (s % 16) (Nat.mod_lt _ (by norm_num))
  simp [isHexGroup, hex2, h1, h2]

/-- A `%02X` chunk holds no ESC byte. -/
lemma hex2_no27 (s : Nat) : ∀ b ∈ hex2 s, b ≠ 27 := by
  intro b hb
  have h1 := hexDigitByte_ge (s / 16 % 16)
  have h2 := hexDigitByte_ge (s % 16)
  simp only [hex2, List.mem_cons, List.not_mem_nil, or_false] at hb
  rcases hb with h | h <;> omega

/-- The address chunk holds no ESC byte. -/
lemma addr_no27 (a : Nat) : ∀ b ∈ hex8 a ++ ascii " ", b ≠ 27 := by
  intro b hb
  rcases List.mem_append.mp hb with h | h
  · simp only [hex8, List.mem_map] at h
    obtain ⟨k, -, hk⟩ := h
    have := hexDigitByte_ge (a / 16 ^ k % 16)
    omega
  · have h32 : ascii " " = [32] := by decide
    rw [h32] at h
    simp only [List.mem_singleton] at h
    omega

/-- Mode and width of a `%02X` chunk. -/
lemma hex2_esc_vis (s : Nat) : escMode false (hex2 s) = false ∧ visLen (hex2 s) = 2 := by
  have h := no_esc_facts (hex2 s) (hex2_no27 s)
  exact ⟨h.1, by rw [visLen, h.2]; rfl⟩

/-- Mode and width of the address chunk: nine columns. -/
lemma addr_esc_vis (a : Nat) :
    escMode false (hex8 a ++ ascii " ") = false ∧ visLen (hex8 a ++ ascii " ") = 9 := by
  have h := no_esc_facts _ (addr_no27 a)
  refine ⟨h.1, ?_⟩
  rw [visLen, h.2]
  simp [hex8, ascii]

/-- Chunk facts decided by evaluation: the reset-plus-space separator. -/
@[simp] lemma sep_esc : escMode false (ascii "\x1B[0m ") = false := by decide

/-- Width of the separator chunk. -/
@[simp] lemma sep_vis : visLen (ascii "\x1B[0m ") = 1 := by decide

/-- The separator is not a hex group. -/
@[simp] lemma sep_group : isHexGroup (ascii "\x1B[0m ") = false := by decide

/-- The separator is not a blank pad slot. -/
@[simp] lemma sep_pad : (ascii "\x1B[0m " == ascii "   ") = false := by decide

/-- The cursor attribute chunk stays outside escapes. -/
@[simp] lemma cursor_esc : escMode false CURSOR_COLOR = false := by decide

/-- The cursor attribute chunk is invisible. -/
@[simp] lemma cursor_vis : visLen CURSOR_COLOR = 0 := by decide

/-- The cursor attribute chunk is not a hex group. -/
@[simp] lemma cursor_group : isHexGroup CURSOR_COLOR = false := by decide

/-- The cursor attribute chunk is not a blank pad slot. -/
@[simp] lemma cursor_pad : (CURSOR_COLOR == ascii "   ") = false := by decide

/-- The first group attribute chunk stays outside escapes. -/
@[simp] lemma cell1_esc : escMode false CELL1_COLOR = false := by decide

/-- The first group attribute chunk is invisible. -/
@[simp] lemma cell1_vis : visLen CELL1_COLOR = 0 := by decide

/-- The first group attribute chunk is not a hex group. -/
@[simp] lemma cell1_group : isHexGroup CELL1_COLOR = false := by decide

/-- The first group attribute chunk is not a blank pad slot. -/
@[simp] lemma cell1_pad : (CELL1_COLOR == ascii "   ") = false := by decide

/-- The second group attribute chunk stays outside escapes. -/
@[simp] lemma cell2_esc : escMode false CELL2_COLOR = false := by decide

/-- The second group attribute chunk is invisible. -/
@[simp] lemma cell2_vis : visLen CELL2_COLOR = 0 := by decide

/-- The second group attribute chunk is not a hex group. -/
@[simp] lemma cell2_group : isHexGroup CELL2_COLOR = false := by decide

/-- The second group attribute chunk is not a blank pad slot. -/
@[simp] lemma cell2_pad : (CELL2_COLOR == ascii "   ") = false := by decide

/-- A blank pad slot stays outside escapes. -/
@[simp] lemma pad_esc : escMode false (ascii "   ") = false := by decide

/-- A blank pad slot is three columns wide. -/
@[simp] lemma pad_vis : visLen (ascii "   ") = 3 := by decide

/-- A blank pad slot is not a hex group. -/
@[simp] lemma pad_group : isHexGroup (ascii "   ") = false := by decide

/-- Simp forms of the `%02X` chunk facts. -/
@[simp] lemma hex2_esc (s : Nat) : escMode false (hex2 s) = false := (hex2_esc_vis s).1

/-- Width of a `%02X` chunk. -/
@[simp] lemma hex2_vis (s : Nat) : visLen (hex2 s) = 2 := (hex2_esc_vis s).2

/-- A `%02X` chunk is a hex group (simp form). -/
@[simp] lemma hex2_group (s : Nat) : isHexGroup (hex2 s) = true := isHexGroup_hex2 s

/-- A `%02X` chunk is not a blank pad slot. -/
@[simp] lemma hex2_pad (s : Nat) : (hex2 s == ascii "   ") = false := by
  rw [beq_eq_false_iff_ne]
  intro h
  have := congrArg List.length h
  simp [hex2, ascii] at this

/-- The address chunk is not a hex group. -/
@[simp] lemma addr_group (a : Nat) : isHexGroup (hex8 a ++ ascii " ") = false := by
  simp [isHexGroup, hex8, ascii]

/-- The address chunk is not a blank pad slot. -/
@[simp] lemma addr_pad (a : Nat) : ((hex8 a ++ ascii " ") == ascii "   ") = false := by
  rw [beq_eq_false_iff_ne]
  intro h
  have := congrArg List.length h
  simp [hex8, ascii] at this

/-- Aggregate facts for the chunks of one hex column. -/
lemma hexCell_facts (cp : Int) (i s : Nat) :
    (∀ c ∈ hexCell cp i s, escMode false c = false)
    ∧ ((hexCell cp i s).map visLen).sum = (if 0 < i then 1 else 0) + 2
    ∧ (hexCell cp i s).countP isHexGroup = 1
    ∧ (hexCell cp i s).countP (fun c => c == ascii "   ") = 0 := by
  unfold hexCell
  split_ifs <;> refine ⟨?_, ?_, ?_, ?_⟩ <;>
    simp [List.countP_cons, List.forall_mem_cons]

/-- Aggregate facts for all hex columns enumerated from index `k`. -/
lemma cells_facts (cp : Int) :
    ∀ (slice : List Nat) (k : Nat),
      (∀ c ∈ ((List.enumFrom k slice).map (fun p => hexCell cp p.1 p.2)).flatten,
          escMode false c = false)
      ∧ ((List.enumFrom k slice).map (fun p => hexCell cp p.1 p.2)).flatten.countP isHexGroup
          = slice.length
      ∧ ((List.enumFrom k slice).map (fun p => hexCell cp p.1 p.2)).flatten.countP
          (fun c => c == ascii "   ") = 0
      ∧ (1 ≤ k →
          ((((List.enumFrom k slice).map (fun p => hexCell cp p.1 p.2)).flatten.map
            visLen).sum = 3 * slice.length)) := by
  intro slice
  induction slice with
  | nil => intro k; simp [List.enumFrom]
  | cons a r ih =>
    intro k
    obtain ⟨he, hsum, hg, hp⟩ := hexCell_facts cp k a
    obtain ⟨ihe, ihg, ihp, ihs⟩ := ih (k + 1)
    simp only [List.enumFrom, List.map_cons, List.flatten_cons]
    refine ⟨?_, ?_, ?_, ?_⟩
    · intro c hc
      rcases List.mem_append.mp hc with hc | hc
      · exact he c hc
      · exact ihe c hc
    · rw [List.countP_append, hg, ihg]
      simp only [List.length_cons]
      omega
    · rw [List.countP_append, hp, ihp]
    · intro hk
      rw [List.map_append, List.sum_append, hsum, ihs (by omega), if_pos (by omega : 0 < k)]
      simp only [List.length_cons]
      omega

/-- The width of a concatenation of self-contained chunks is the sum of
the chunk widths. -/
lemma visLen_flatten : ∀ (cs : List (List Nat)), (∀ c ∈ cs, escMode false c = false) →
    visLen cs.flatten = (cs.map visLen).sum := by
  intro cs
  induction cs with
  | nil => intro _; rfl
  | cons c rest ih =>
    intro h
    have hc : escMode false c = false := h c (by simp)
    rw [List.flatten_cons, visLen, visLenAux_append c rest.flatten false, hc,
      List.map_cons, List.sum_cons]
    rw [show visLenAux false rest.flatten = visLen rest.flatten from rfl,
      ih (fun d hd => h d (by simp [hd]))]
    rfl

/-- Total width of the hex columns of a whole record: `3N - 1` columns
for `N` bytes (the first column has no separator); `0` for an empty
record by natural truncation. -/
lemma cells_sum_enum (cp : Int) (slice : List Nat) :
    (((slice.enum.map (fun p => hexCell cp p.1 p.2)).flatten.map visLen).sum)
      = 3 * slice.length - 1 := by
  cases slice with
  | nil => simp [List.enum]
  | cons a r =>
    obtain ⟨-, hsum, -, -⟩ := hexCell_facts cp 0 a
    rw [if_neg (lt_irrefl 0)] at hsum
    have hr := ((cells_facts cp r 1).2.2.2) (by omega)
    have henum : (a :: r).enum = (0, a) :: List.enumFrom 1 r := rfl
    rw [henum, List.map_cons, List.flatten_cons, List.map_append, List.sum_append,
      hsum, hr]
    simp only [List.length_cons]
    omega

/-- A constant-valued map over `List.range` is a replicate. -/
lemma range_map_const (n : Nat) (x : List Nat) :
    (List.range n).map (fun _ => x) = List.replicate n x := by
  induction n with
  | zero => rfl
  | succ m ih =>
    rw [List.range_succ, List.map_append, ih, List.map_cons, List.map_nil,
      List.replicate_succ']

/-- Blank pad slots are never hex groups. -/
lemma countP_replicate_pad (n : Nat) :
    (List.replicate n (ascii "   ")).countP isHexGroup = 0 := by
  induction n with
  | zero => rfl
  | succ m ih =>
    rw [List.replicate_succ, List.countP_cons, ih]
    simp

/-- Every chunk of the hex panel is escape-complete. -/
lemma hexPanel_escMode (a : Nat) (cp : Int) (slice : List Nat) :
    ∀ c ∈ hexPanel a cp slice, escMode false c = false := by
  intro c hc
  unfold hexPanel hexBody at hc
  rcases List.mem_append.mp hc with hc | hc
  · rcases List.mem_cons.mp hc with hc | hc
    · subst hc
      exact (addr_esc_vis a).1
    · rcases List.mem_append.mp hc with hc | hc
      · exact (cells_facts cp slice 0).1 c hc
      · simp only [List.mem_singleton] at hc
        subst hc
        exact sep_esc
  · simp only [List.mem_map] at hc
    obtain ⟨k, -, hk⟩ := hc
    rw [← hk]
    exact pad_esc

/-- Visible width of the hex panel for a nonempty record of at most 16
bytes: always 57 columns, so the character panel starts at the same
column for every such record length. -/
lemma hexPanel_width (a : Nat) (cp : Int) (slice : List Nat)
    (h16 : slice.length ≤ 16) (h1 : 1 ≤ slice.length) :
    visLen (hexPanel a cp slice).flatten = 57 := by
  rw [visLen_flatten _ (hexPanel_escMode a cp slice)]
  unfold hexPanel hexBody
  rw [List.map_append, List.sum_append, List.map_cons, List.sum_cons,
    List.map_append, List.sum_append, (addr_esc_vis a).2, cells_sum_enum cp slice]
  rw [range_map_const]
  simp only [List.map_cons, List.map_nil, List.sum_cons, List.sum_nil, sep_vis,
    List.map_replicate, pad_vis, List.sum_replicate, smul_eq_mul]
  omega

/-! ## Claims -/

/-- C1: for the 11-byte input "Hello World" as one record, rendered at
address 0 with cursor column 0, the code emits the address chunk
"00000000 ", highlights hex byte 48 and the glyph H with the cursor
attribute — but the character panel shows only "Hello Worl" verbatim and
renders the final byte 0x64 ('d') as the placeholder ".", because the
guard `i+length >= len(slice)` (main.go line 69) rejects every sequence
ending exactly at the record end.  This evaluation of the code at the
claim's own input exhibits the divergence from "shows every byte of
Hello World verbatim". -/
theorem hello_world_render_eval :
    draw 0 0 (ascii "Hello World") =
      [ascii "00000000 ",
       CURSOR_COLOR, ascii "48",
       ascii "\x1B[0m ", CELL1_COLOR, ascii "65",
       ascii "\x1B[0m ", CELL1_COLOR, ascii "6C",
       ascii "\x1B[0m ", CELL1_COLOR, ascii "6C",
       ascii "\x1B[0m ", CELL2_COLOR, ascii "6F",
       ascii "\x1B[0m ", CELL2_COLOR, ascii "20",
       ascii "\x1B[0m ", CELL2_COLOR, ascii "57",
       ascii "\x1B[0m ", CELL2_COLOR, ascii "6F",
       ascii "\x1B[0m ", CELL1_COLOR, ascii "72",
       ascii "\x1B[0m ", CELL1_COLOR, ascii "6C",
       ascii "\x1B[0m ", CELL1_COLOR, ascii "64",
       ascii "\x1B[0m ",
       ascii "   ", ascii "   ", ascii "   ", ascii "   ", ascii "   ",
       CURSOR_COLOR, ascii "H",
       CELL1_COLOR, ascii "e",
       CELL1_COLOR, ascii "l",
       CELL1_COLOR, ascii "l",
       CELL1_COLOR, ascii "o",
       CELL1_COLOR, ascii " ",
       CELL1_COLOR, ascii "W",
       CELL1_COLOR, ascii "o",
       CELL1_COLOR, ascii "r",
       CELL1_COLOR, ascii "l",
       CELL1_COLOR, ascii ".",
       ERASE_LINE] := by decide

/-- C2: evaluation of the renderer on 2-byte UTF-8 sequences.  The record
[0xC3, 0xA9] is a valid 2-byte sequence with its continuation byte in
0x80..0xBF that does not run past the end of the record, yet the code
renders two placeholder "." glyphs, because `i+length >= len(slice)`
(main.go line 69) also rejects a sequence ending exactly at the record
end; with one more byte after it, [0xC3, 0xA9, 0x41], the same sequence
renders as one glyph spanning two byte columns (the trailing 0x41,
now itself at the record end, becomes the placeholder); and a lead byte
with an invalid continuation, [0xC3, 0x41, 0x42], yields a placeholder
for the lead followed by the independently rendered following bytes
(here the printable glyph "A", not a second placeholder). -/
theorem two_byte_sequence_render_eval :
    (draw 0 (-1) [0xC3, 0xA9] =
      [ascii "00000000 ",
       CELL1_COLOR, ascii "C3", ascii "\x1B[0m ", CELL1_COLOR, ascii "A9",
       ascii "\x1B[0m "] ++
      (List.range 14).map (fun _ => ascii "   ") ++
      [CELL1_COLOR, ascii ".", CELL1_COLOR, ascii ".", ERASE_LINE])
    ∧ (draw 0 (-1) [0xC3, 0xA9, 0x41] =
      [ascii "00000000 ",
       CELL1_COLOR, ascii "C3", ascii "\x1B[0m ", CELL1_COLOR, ascii "A9",
       ascii "\x1B[0m ", CELL1_COLOR, ascii "41",
       ascii "\x1B[0m "] ++
      (List.range 13).map (fun _ => ascii "   ") ++
      [CELL1_COLOR, [0xC3, 0xA9], CELL1_COLOR, ascii ".", ERASE_LINE])
    ∧ (draw 0 (-1) [0xC3, 0x41, 0x42] =
      [ascii "00000000 ",
       CELL1_COLOR, ascii "C3", ascii "\x1B[0m ", CELL1_COLOR, ascii "41",
       ascii "\x1B[0m ", CELL1_COLOR, ascii "42",
       ascii "\x1B[0m "] ++
      (List.range 13).map (fun _ => ascii "   ") ++
      [CELL1_COLOR, ascii ".", CELL1_COLOR, ascii "A", CELL1_COLOR, ascii ".",
       ERASE_LINE]) := by
  refine ⟨by decide, by decide, by decide⟩

/-- C4 (counterexample): an error on the quit-confirmation key read does
not abort the interactive loop.  With one record [0x48], fresh state,
size query 80x25, main key "q" and a failing confirmation read, the
iteration continues into the next frame instead of propagating the
error. -/
theorem confirm_read_error_not_fatal :
    frameStep [[72]] ⟨0, 0, 0, 0, 0, []⟩ (.ok (80, 25)) (.ok "q") (.error "boom") =
      .next ⟨0, 0, 0, 80, 25, [(0, (draw 0 0 [72]).flatten)]⟩
    ∧ frameStep [[72]] ⟨0, 0, 0, 0, 0, []⟩ (.ok (80, 25)) (.ok "q") (.error "boom") ≠
      .fail "boom" := by
  refine ⟨by decide, by decide⟩

/-- C4 (amended): any error from the terminal-size query or from the
main-loop key read aborts the interactive loop immediately and propagates
that error; an error on the quit-confirmation key read after "q" or
escape is instead treated as a non-confirmation (main.go line 278 tests
`err == nil && ch == "y"`) and the loop continues with a next state. -/
theorem size_or_key_error_aborts (slices : List (List Nat)) (s : LoopState)
    (size : Except String (Int × Int)) (key confirm : Except String String) :
    (∀ e, size = .error e → frameStep slices s size key confirm = .fail e)
    ∧ (∀ w h e, size = .ok (w, h) → key = .error e →
        frameStep slices s size key confirm = .fail e)
    ∧ (∀ w h e ch, size = .ok (w, h) → key = .ok ch → (ch = "q" ∨ ch = KEY_ESC) →
        confirm = .error e →
        ∃ s', frameStep slices s size key confirm = .next s') := by
  refine ⟨?_, ?_, ?_⟩
  · intro e h
    subst h
    rfl
  · intro w h e hs hk
    subst hs
    subst hk
    rfl
  · intro w h e ch hs hk hch hc
    subst hs
    subst hk
    subst hc
    simp only [frameStep, loopIter]
    rw [if_neg]
    · exact ⟨_, rfl⟩
    · rintro ⟨-, hy⟩
      simp [confirmYes] at hy

/-- C4 (witness): the amended abort behavior at concrete inputs. -/
theorem size_or_key_error_aborts_witness :
    frameStep [[72]] ⟨0, 0, 0, 0, 0, []⟩ (.error "sz") (.ok "q") (.ok "n") = .fail "sz"
    ∧ frameStep [[72]] ⟨0, 0, 0, 0, 0, []⟩ (.ok (80, 25)) (.error "kb") (.ok "n") = .fail "kb"
    ∧ ∃ s', frameStep [[72]] ⟨0, 0, 0, 0, 0, []⟩ (.ok (80, 25)) (.ok "q") (.error "kb2") =
        .next s' := by
  have h := size_or_key_error_aborts [[72]] ⟨0, 0, 0, 0, 0, []⟩ (.error "sz") (.ok "q") (.ok "n")
  have h2 := size_or_key_error_aborts [[72]] ⟨0, 0, 0, 0, 0, []⟩ (.ok (80, 25)) (.error "kb") (.ok "n")
  have h3 := size_or_key_error_aborts [[72]] ⟨0, 0, 0, 0, 0, []⟩ (.ok (80, 25)) (.ok "q") (.error "kb2")
  exact ⟨h.1 "sz" rfl, h2.2.1 80 25 "kb" rfl rfl,
    h3.2.2 80 25 "kb2" "q" rfl rfl (Or.inl rfl) rfl⟩

/-- C6: after every key handled by the loop, the scroll adjustment of
main.go lines 309-313 — `if rowIndex < startRow, startRow = rowIndex;
else if rowIndex >= startRow + screenHeight - 1, startRow = rowIndex -
(screenHeight-1) + 1` — restores the viewport invariant
`startRow ≤ rowIndex < startRow + heightInRows`, where `heightInRows =
screenHeight - 1` is the screen height available for data rows, provided
at least one data row fits. -/
theorem viewport_invariant_restored (slices : List (List Nat)) (scrH : Int)
    (s : LoopState) (ch : String) (confirm : Except String String) (s' : LoopState)
    (hH : 1 ≤ scrH - 1)
    (h : loopIter slices scrH s (.ok ch) confirm = .next s') :
    s'.startRow ≤ s'.rowIndex ∧ s'.rowIndex < s'.startRow + (scrH - 1) := by
  simp only [loopIter] at h
  split at h
  · exact absurd h (by simp)
  · have hs' : s' = scrollFix scrH (clampCol slices (switchKey slices s ch)) :=
      (StepOutcome.next.injEq _ _).mp h.symm
    subst hs'
    set t := clampCol slices (switchKey slices s ch) with ht
    unfold scrollFix
    by_cases h1 : t.rowIndex < t.startRow
    · rw [if_pos h1]
      exact ⟨le_refl t.rowIndex, by show t.rowIndex < t.rowIndex + (scrH - 1); omega⟩
    · rw [if_neg h1]
      by_cases h2 : t.startRow + scrH - 1 ≤ t.rowIndex
      · rw [if_pos h2]
        refine ⟨?_, ?_⟩
        · show t.rowIndex - (scrH - 1) + 1 ≤ t.rowIndex
          omega
        · show t.rowIndex < t.rowIndex - (scrH - 1) + 1 + (scrH - 1)
          omega
      · rw [if_neg h2]
        exact ⟨by omega, by omega⟩

/-- C6 (witness): restoring the viewport at a concrete state after a
"move down" key, for screen height 4. -/
theorem viewport_invariant_restored_witness :
    (1 : Int) ≤ 4 - 1
    ∧ ((LoopState.mk 0 1 0 0 0 []).startRow ≤ (LoopState.mk 0 1 0 0 0 []).rowIndex
       ∧ (LoopState.mk 0 1 0 0 0 []).rowIndex <
         (LoopState.mk 0 1 0 0 0 []).startRow + (4 - 1)) :=
  ⟨by decide, viewport_invariant_restored [[72], [73]] 4 ⟨0, 0, 0, 0, 0, []⟩ "j" (.ok "")
    ⟨0, 1, 0, 0, 0, []⟩ (by decide) (by decide)⟩

/-- C7: the renderer is a pure function, so a second render with the same
record, address and cursor state yields the same text; `view`'s diff
logic (main.go lines 144-148) then reports no write needed on a second
pass for the same slot and line, reports a write needed exactly once
after the cache is cleared to the empty map (main.go lines 244 and 275),
and reports no write on subsequent identical passes; the second pass also
leaves the cache unchanged. -/
theorem diff_cache_idempotent (a : Nat) (cp : Int) (slice : List Nat) (slot : Nat)
    (c : Cache) :
    (cacheStep (cacheStep c slot ((draw a cp slice).flatten)).2 slot
        ((draw a cp slice).flatten)).1 = false
    ∧ (cacheStep (cacheStep c slot ((draw a cp slice).flatten)).2 slot
        ((draw a cp slice).flatten)).2 = (cacheStep c slot ((draw a cp slice).flatten)).2
    ∧ (cacheStep ([] : Cache) slot ((draw a cp slice).flatten)).1 = true
    ∧ (cacheStep (cacheStep ([] : Cache) slot ((draw a cp slice).flatten)).2 slot
        ((draw a cp slice).flatten)).1 = false := by
  set line := (draw a cp slice).flatten with hline
  have hne : line ≠ [] := draw_flatten_ne_nil a cp slice
  set d1 := cacheStep c slot line with hd1
  set d0 := cacheStep ([] : Cache) slot line with hd0
  have hget : cacheGet d1.2 slot = line := cacheGet_after_step c slot line
  have hget0 : cacheGet d0.2 slot = line := cacheGet_after_step ([] : Cache) slot line
  refine ⟨?_, ?_, ?_, ?_⟩
  · simp [cacheStep, hget]
  · simp [cacheStep, hget]
  · have hnil : cacheGet ([] : Cache) slot = [] := rfl
    simp [hd0, cacheStep, hnil, Ne.symm hne]
  · simp [cacheStep, hget0]

/-- C8: in any state satisfying the column and viewport invariants for
the current screen height, "q" (or escape) followed by any answer other
than "y" leaves the cursor row, cursor column and viewport start row
unchanged — the whole loop state is returned as is, control returning to
the normal loop — while "q" (or escape) followed by "y" ends the loop
with success (`return nil`, main.go lines 276-281). -/
theorem quit_confirm_flow (slices : List (List Nat)) (scrH : Int) (s : LoopState)
    (ans ch : String)
    (hch : ch = "q" ∨ ch = KEY_ESC)
    (hc : s.colIndex < rowLen slices s.rowIndex)
    (hv1 : s.startRow ≤ s.rowIndex)
    (hv2 : s.rowIndex < s.startRow + (scrH - 1)) :
    (ans ≠ "y" → loopIter slices scrH s (.ok ch) (.ok ans) = .next s)
    ∧ loopIter slices scrH s (.ok ch) (.ok "y") = .quit := by
  have hclamp : clampCol slices s = s := by
    unfold clampCol
    rw [if_neg (not_le.mpr hc)]
  have hscroll : scrollFix scrH s = s := by
    unfold scrollFix
    rw [if_neg (not_lt.mpr hv1), if_neg (by omega)]
  constructor
  · intro hans
    simp only [loopIter]
    rw [if_neg, switchKey_quit slices s ch hch, hclamp, hscroll]
    rintro ⟨-, hy⟩
    simp only [confirmYes, decide_eq_true_eq] at hy
    exact hans hy
  · simp only [loopIter]
    rw [if_pos ⟨hch, by simp [confirmYes]⟩]

/-- C8 (witness): the quit flow at a concrete in-invariant state. -/
theorem quit_confirm_flow_witness :
    (Binview.loopIter [[5]] 3 ⟨0, 0, 0, 0, 0, []⟩ (.ok "q") (.ok "n") =
      .next ⟨0, 0, 0, 0, 0, []⟩)
    ∧ Binview.loopIter [[5]] 3 ⟨0, 0, 0, 0, 0, []⟩ (.ok "q") (.ok "y") = .quit := by
  have h := quit_confirm_flow [[5]] 3 ⟨0, 0, 0, 0, 0, []⟩ "n" "q" (Or.inl rfl)
    (by decide) (by decide) (by decide)
  exact ⟨h.1 (by decide), h.2⟩

/-- C9: in the normal state, the keys "j", "k", "h" and "l" are dispatched
by the very same switch cases as the down, up, left and right arrow
tokens (main.go lines 282-295), so they produce identical loop outcomes
from every state. -/
theorem vi_movement_keys (slices : List (List Nat)) (scrH : Int) (s : LoopState)
    (confirm : Except String String) :
    loopIter slices scrH s (.ok "j") confirm = loopIter slices scrH s (.ok KEY_DOWN) confirm
    ∧ loopIter slices scrH s (.ok "k") confirm = loopIter slices scrH s (.ok KEY_UP) confirm
    ∧ loopIter slices scrH s (.ok "h") confirm = loopIter slices scrH s (.ok KEY_LEFT) confirm
    ∧ loopIter slices scrH s (.ok "l") confirm = loopIter slices scrH s (.ok KEY_RIGHT) confirm :=
  ⟨rfl, rfl, rfl, rfl⟩

/-- C5: from a well-formed state over a dataset of nonempty rows, every
continuing loop iteration leaves the cursor column in
`[0, len(current row) - 1]` — the post-switch clamp of main.go lines
305-307 restores the upper bound, every switch case preserves
nonnegativity — and, in particular, starting at the last column of the
current row, any number N of "move right" presses leaves the column at
`len(row) - 1` of the unchanged row, never beyond. -/
theorem column_stays_in_range (slices : List (List Nat)) (scrH : Int) (s : LoopState)
    (hrows : ∀ q ∈ slices, 1 ≤ q.length)
    (hr0 : 0 ≤ s.rowIndex) (hr1 : s.rowIndex < (slices.length : Int))
    (hc : 0 ≤ s.colIndex) :
    (∀ ch confirm s', loopIter slices scrH s (.ok ch) confirm = .next s' →
        0 ≤ s'.colIndex ∧ s'.colIndex ≤ rowLen slices s'.rowIndex - 1)
    ∧ (s.colIndex = rowLen slices s.rowIndex - 1 →
        ∀ N, (iterRight slices scrH N s).colIndex = rowLen slices s.rowIndex - 1
          ∧ (iterRight slices scrH N s).rowIndex = s.rowIndex) := by
  constructor
  · intro ch confirm s' h
    exact (loopIter_next_col_bounds slices scrH s ch confirm s' hrows hr0 hr1 hc h).2
  · intro hlast N
    exact iterRight_last_col slices scrH N s hr0 hr1
      (rowLen_pos slices s.rowIndex hrows hr0 hr1) hlast

/-- C5 (witness): the clamp on a one-record dataset, for one "move right"
step and for three iterated "move right" presses from the last column. -/
theorem column_stays_in_range_witness :
    ((0 : Int) ≤ (LoopState.mk 0 0 0 0 0 []).colIndex
      ∧ (LoopState.mk 0 0 0 0 0 []).colIndex ≤
        rowLen [[72]] (LoopState.mk 0 0 0 0 0 []).rowIndex - 1)
    ∧ ((iterRight [[72]] 4 3 ⟨0, 0, 0, 0, 0, []⟩).colIndex = rowLen [[72]] (0 : Int) - 1
       ∧ (iterRight [[72]] 4 3 ⟨0, 0, 0, 0, 0, []⟩).rowIndex = (0 : Int)) := by
  have h := column_stays_in_range [[72]] 4 ⟨0, 0, 0, 0, 0, []⟩ (by decide) (by decide)
    (by decide) (by decide)
  exact ⟨h.1 "l" (.ok "") ⟨0, 0, 0, 0, 0, []⟩ (by decide), h.2 (by decide) 3⟩

/-- C10: when every read of the startup loop fits its 16-byte buffer, all
records of the dataset built by main.go lines 207-220 have length in
`[1, 16]` (a chunk is appended only when the returned count is positive);
consequently, over such a dataset, any continuing loop iteration from a
state with a nonnegative column — in particular one issuing "$", whose
handler together with the post-switch clamp sets the column to
`len(row) - 1` — never produces a negative column. -/
theorem records_length_bounds (reads : List (List Nat × Option ReadErr))
    (slices : List (List Nat))
    (hbuf : ∀ p ∈ reads, p.1.length ≤ 16)
    (hok : loadSlices reads = .ok slices) :
    (∀ q ∈ slices, 1 ≤ q.length ∧ q.length ≤ 16)
    ∧ (∀ (scrH : Int) (s : LoopState) ch confirm s',
        0 ≤ s.rowIndex → s.rowIndex < (slices.length : Int) → 0 ≤ s.colIndex →
        loopIter slices scrH s (.ok ch) confirm = .next s' → 0 ≤ s'.colIndex) := by
  have h1 := loadLoop_bounds reads [] slices hbuf (by simp) hok
  refine ⟨h1, ?_⟩
  intro scrH s ch confirm s' hr0 hr1 hc h
  exact (loopIter_next_col_bounds slices scrH s ch confirm s'
    (fun q hq => (h1 q hq).1) hr0 hr1 hc h).2.1

/-- C10 (witness): a one-read trace ending in EOF yields the dataset
`[[72]]` with record lengths in bounds, and a "$" press keeps the column
nonnegative. -/
theorem records_length_bounds_witness :
    (1 ≤ ([72] : List Nat).length ∧ ([72] : List Nat).length ≤ 16)
    ∧ (0 : Int) ≤ (LoopState.mk 0 0 0 0 0 []).colIndex := by
  have h := records_length_bounds [([72], some .eof)] [[72]] (by decide) rfl
  refine ⟨h.1 [72] (by simp), ?_⟩
  exact h.2 3 ⟨0, 0, 0, 0, 0, []⟩ "$" (.ok "") ⟨0, 0, 0, 0, 0, []⟩
    (by decide) (by decide) (by decide) (by decide)

/-- C3 (counterexample): the visible width of the hex panel is not the
same for every record length in [0,16] — an empty record yields 58
columns (no separators are saved, but the post-loop reset-plus-space
still prints) while a one-byte record yields 57, so the claim fails at
N = 0. -/
theorem hex_width_not_constant_at_zero :
    visLen (hexPanel 0 (-1) ([] : List Nat)).flatten = 58
    ∧ visLen (hexPanel 0 (-1) [72]).flatten = 57
    ∧ visLen (hexPanel 0 (-1) ([] : List Nat)).flatten ≠
      visLen (hexPanel 0 (-1) [72]).flatten := by
  refine ⟨by decide, by decide, by decide⟩

/-- C3 (amended): for every record of length N in [0,16] the renderer
emits, before the character panel, a hex body containing exactly N
two-hex-digit groups and no blank pad slot, followed by exactly 16−N
three-space blank pad slots (none of which is a hex group); and for every
N in [1,16] the visible width of the hex panel — the column at which the
character panel starts — is the same, namely 57 (for N = 0 it is 58). -/
theorem hex_groups_and_width (a : Nat) (cp : Int) (slice : List Nat)
    (h16 : slice.length ≤ 16) :
    (hexPanel a cp slice
        = hexBody a cp slice ++ List.replicate (16 - slice.length) (ascii "   ")
      ∧ (hexBody a cp slice).countP isHexGroup = slice.length
      ∧ (hexBody a cp slice).countP (fun c => c == ascii "   ") = 0
      ∧ (List.replicate (16 - slice.length) (ascii "   ")).countP isHexGroup = 0)
    ∧ (1 ≤ slice.length → visLen (hexPanel a cp slice).flatten = 57) := by
  obtain ⟨-, hg, hp, -⟩ := cells_facts cp slice 0
  refine ⟨⟨?_, ?_, ?_, countP_replicate_pad _⟩, fun h1 => hexPanel_width a cp slice h16 h1⟩
  · unfold hexPanel
    rw [range_map_const]
  · unfold hexBody
    rw [List.countP_cons, List.countP_append]
    have henum : slice.enum = List.enumFrom 0 slice := rfl
    rw [← henum] at hg
    rw [hg]
    simp [List.countP_cons]
  · unfold hexBody
    rw [List.countP_cons, List.countP_append]
    have henum : slice.enum = List.enumFrom 0 slice := rfl
    rw [← henum] at hp
    rw [hp]
    simp [List.countP_cons]

/-- C3 (witness): the decomposition and the 57-column alignment for the
two-byte record "Hi". -/
theorem hex_groups_and_width_witness :
    (ascii "Hi").length ≤ 16
    ∧ (hexBody 0 (-1) (ascii "Hi")).countP isHexGroup = (ascii "Hi").length
    ∧ visLen (hexPanel 0 (-1) (ascii "Hi")).flatten = 57 := by
  have h := hex_groups_and_width 0 (-1) (ascii "Hi") (by decide)
  exact ⟨by decide, h.1.2.1, h.2 (by decide)⟩

end Binview
